import Mathlib

/-!
Verification of the Collection Status Engine (`src/types/datStatus.ts`) and the
Fixdat Generator (`FixdatCreator.create`) of the igir repository.

The TypeScript classes `DAT`, `Game`, `Rom`, `WriteCandidate`, `RomWithFiles`,
`File` and `Options` are external collaborators of the verified files and are
consumed only through their public getters; they are embedded below as plain
structures whose fields stand for those getters.  Per the spec, `Game` equality
and its hash code are a stable content identity derived from its defining
fields, so both are modelled by structural equality of the structure.
JavaScript `Map`s keyed by ROM type are modelled as total functions from the
(five-element) ROM-type enumeration to lists, with "key absent" identified with
the empty list: the only reads in the source are `get(k) ?? []`,
`get(k)?.length ?? 0`, a nonemptiness filter, and a flattening of `values()`,
all of which are preserved by this identification.
-/

namespace Igir

/-- Modelled from the spec: a `Rom` belongs to a game and carries a content
identity (hash code) used to test whether it was resolved. -/
structure Rom where
  name : String
  hashCode : String
deriving DecidableEq

/-- Modelled from the spec: `RomWithFiles` pairs a rom with its resolved input
file path and (if a write occurred) output file path.  A `File` is consumed
only through `getFilePath()`, so it is embedded as its path string. -/
structure RomWithFiles where
  rom : Rom
  inputFile : String
  outputFile : String
deriving DecidableEq

/-- Modelled from the spec: a `Game` has a name, an ordered list of roms and
boolean attribute flags; equality is by the content identity of its defining
fields. -/
structure Game where
  name : String
  roms : List Rom
  isBios : Bool
  isDevice : Bool
  isRetail : Bool
  unlicensed : Bool
  debug : Bool
  demo : Bool
  beta : Bool
  sample : Bool
  prototype : Bool
  program : Bool
  aftermarket : Bool
  homebrew : Bool
  bad : Bool
deriving DecidableEq

/-- Modelled from the spec: a `WriteCandidate` is a proposed match between one
game and zero-or-more resolved rom-with-file pairs, and carries a "patched"
flag. -/
structure WriteCandidate where
  game : Game
  romsWithFiles : List RomWithFiles
  isPatched : Bool
deriving DecidableEq

/-- Modelled from the spec: a catalog (`DAT`) is a name and an ordered list of
games. -/
structure DAT where
  name : String
  games : List Game
deriving DecidableEq

/-- Modelled from the spec: the configuration surface consumed by the two
verified files, one boolean getter per field. -/
structure Options where
  onlyBios : Bool
  onlyDevice : Bool
  onlyRetail : Bool
  noBios : Bool
  noDevice : Bool
  usingDats : Bool
  shouldWrite : Bool
  shouldFixdat : Bool
deriving DecidableEq

/-- The `ROMType` enumeration of `datStatus.ts`. -/
inductive ROMType where
  | GAME
  | BIOS
  | DEVICE
  | RETAIL
  | PATCHED
deriving DecidableEq

/-- The display name of each `ROMType` value. -/
def romTypeName : ROMType → String
  | .GAME => "games"
  | .BIOS => "BIOSes"
  | .DEVICE => "devices"
  | .RETAIL => "retail releases"
  | .PATCHED => "patched games"

/-- The `GameStatus` enumeration of `datStatus.ts`. -/
inductive GameStatus where
  | FOUND
  | INCOMPLETE
  | MISSING
  | DUPLICATE
  | UNUSED
  | DELETED
deriving DecidableEq

/-- `GameStatusInverted`: the key (label) of each `GameStatus` value. -/
def gameStatusName : GameStatus → String
  | .FOUND => "FOUND"
  | .INCOMPLETE => "INCOMPLETE"
  | .MISSING => "MISSING"
  | .DUPLICATE => "DUPLICATE"
  | .UNUSED => "UNUSED"
  | .DELETED => "DELETED"

/-- Modelled from the spec: `ArrayPoly.reduceUnique()` deduplicates a list,
keeping the first occurrence of each element. -/
def reduceUnique [DecidableEq α] (l : List α) : List α :=
  l.foldl (fun acc x => if x ∈ acc then acc else acc ++ [x]) []

/-- The three partition indices held by a `DATStatus` instance. -/
structure DATStatusState where
  allRomTypesToGames : ROMType → List Game
  foundRomTypesToCandidates : ROMType → List (Option WriteCandidate)
  incompleteRomTypesToCandidates : ROMType → List WriteCandidate

/-- `DATStatus.append`: push a value onto one ROM type's list. -/
def appendToMap (m : ROMType → List α) (romType : ROMType) (v : α) : ROMType → List α :=
  fun t => if t = romType then m t ++ [v] else m t

/-- `DATStatus.pushValueIntoMap`: push a value under `games` always, and under
`BIOSes` / `devices` / `retail releases` according to the game's flags. -/
def pushValueIntoMap (m : ROMType → List α) (g : Game) (v : α) : ROMType → List α :=
  let m1 := appendToMap m ROMType.GAME v
  let m2 := if g.isBios then appendToMap m1 ROMType.BIOS v else m1
  let m3 := if g.isDevice then appendToMap m2 ROMType.DEVICE v else m2
  if g.isRetail then appendToMap m3 ROMType.RETAIL v else m3

/-- The set of ROM-type tags a game qualifies for in `pushValueIntoMap`
(`patched games` is never populated by it). -/
def romTypeQualifies (g : Game) : ROMType → Bool
  | .GAME => true
  | .BIOS => g.isBios
  | .DEVICE => g.isDevice
  | .RETAIL => g.isRetail
  | .PATCHED => false

/-- The candidate group of a game in `indexedCandidates`: all candidates whose
game has the same content identity, in order ("key absent" = empty list). -/
def gameCandidatesFor (candidates : List WriteCandidate) (g : Game) : List WriteCandidate :=
  candidates.filter (fun c => c.game == g)

/-- The body of the per-game loop of the `DATStatus` constructor
("Un-patched ROMs"). -/
def processGame (candidates : List WriteCandidate) (s : DATStatusState) (g : Game) :
    DATStatusState :=
  let s1 : DATStatusState :=
    { s with allRomTypesToGames := pushValueIntoMap s.allRomTypesToGames g g }
  let gameCandidates := gameCandidatesFor candidates g
  if gameCandidates ≠ [] ∨ g.roms.length = 0 then
    match gameCandidates.head? with
    | some gameCandidate =>
      if gameCandidate.romsWithFiles.length ≠ g.roms.length then
        { s1 with
          incompleteRomTypesToCandidates :=
            pushValueIntoMap s1.incompleteRomTypesToCandidates g gameCandidate }
      else
        { s1 with
          foundRomTypesToCandidates :=
            pushValueIntoMap s1.foundRomTypesToCandidates g (some gameCandidate) }
    | none =>
      { s1 with
        foundRomTypesToCandidates := pushValueIntoMap s1.foundRomTypesToCandidates g none }
  else s1

/-- The body of the "Patched ROMs" loop of the `DATStatus` constructor. -/
def appendPatched (s : DATStatusState) (c : WriteCandidate) : DATStatusState :=
  { s with
    allRomTypesToGames := appendToMap s.allRomTypesToGames ROMType.PATCHED c.game
    foundRomTypesToCandidates :=
      appendToMap s.foundRomTypesToCandidates ROMType.PATCHED (some c) }

/-- The state with all three maps empty. -/
def emptyStatus : DATStatusState :=
  ⟨fun _ => [], fun _ => [], fun _ => []⟩

/-- The `DATStatus` constructor: the per-game loop followed by the patched
loop. -/
def buildStatus (dat : DAT) (candidates : List WriteCandidate) : DATStatusState :=
  (candidates.filter (fun c => c.isPatched)).foldl appendPatched
    (dat.games.foldl (processGame candidates) emptyStatus)

/-- `DATStatus.getAllowedTypes`. -/
def getAllowedTypes (options : Options) : List ROMType :=
  ([if !options.onlyBios && !options.onlyDevice && !options.onlyRetail then
      some ROMType.GAME
    else none,
    if options.onlyBios || (!options.noBios && !options.onlyDevice) then
      some ROMType.BIOS
    else none,
    if options.onlyDevice || (!options.onlyBios && !options.noDevice) then
      some ROMType.DEVICE
    else none,
    if options.onlyRetail || (!options.onlyBios && !options.onlyDevice) then
      some ROMType.RETAIL
    else none,
    some ROMType.PATCHED]).filterMap id

/-- The fixed iteration order of the ROM-type enumeration, used to model the
flattening of the partition maps' `values()` in `getInputFiles` (absent keys
contribute the empty list; the insertion order of a JS `Map` only permutes the
concatenation and no verified property depends on that order). -/
def romTypeList : List ROMType :=
  [ROMType.GAME, ROMType.BIOS, ROMType.DEVICE, ROMType.RETAIL, ROMType.PATCHED]

/-- `DATStatus.getInputFiles`: flatten both candidate partitions, drop
`undefined` entries, and list every `RomWithFiles` input file path. -/
def getInputFiles (s : DATStatusState) : List String :=
  (((romTypeList.map s.foundRomTypesToCandidates).flatten.filterMap id) ++
      (romTypeList.map s.incompleteRomTypesToCandidates).flatten)
    |>.flatMap (fun c => c.romsWithFiles)
    |>.map (fun rwf => rwf.inputFile)

/-- `DATStatus.anyGamesFound`: fold over the allowed types, or-ing in whether
that type's found partition is nonempty. -/
def anyGamesFound (options : Options) (s : DATStatusState) : Bool :=
  (getAllowedTypes options).foldl
    (fun result romType =>
      result || ((s.foundRomTypesToCandidates romType).length > 0 : Bool))
    false

/-- One segment of `DATStatus.toConsole` for one ROM type.  The chalk color
wrapping and `toLocaleString` number formatting are elided: they decorate the
digits without changing whether a bare count or a `found/all` fraction is
emitted (the percentage in the source is consumed only by the color choice). -/
def toConsoleSegment (options : Options) (s : DATStatusState) (t : ROMType) : String :=
  let found := s.foundRomTypesToCandidates t
  let all := s.allRomTypesToGames t
  if !options.usingDats then
    Nat.repr found.length ++ " " ++ romTypeName t
  else if t = ROMType.PATCHED then
    Nat.repr all.length ++ " " ++ romTypeName t
  else
    Nat.repr found.length ++ "/" ++ Nat.repr all.length ++ " " ++ romTypeName t

/-- `DATStatus.toConsole`: render each allowed type with a nonempty "all"
partition and join with a written/found suffix. -/
def toConsole (options : Options) (s : DATStatusState) : String :=
  String.intercalate ", "
      ((((getAllowedTypes options).filter
            (fun t => (s.allRomTypesToGames t).length > 0)).map
          (toConsoleSegment options s)).filter (fun str => str.length > 0)) ++
    (if options.shouldWrite then " written" else " found")

/-- `DATStatus.getValuesForAllowedTypes` for the found map (whose stored values
are possibly-`undefined` candidates, filtered out here as in the source).  The
trailing JS `.sort()` (default stringification order) is elided: it permutes
the list, and every verified property reads this list only through existence
of a matching element. -/
def csvFoundCandidates (options : Options) (s : DATStatusState) : List WriteCandidate :=
  reduceUnique
    (((getAllowedTypes options).flatMap s.foundRomTypesToCandidates).filterMap id)

/-- `DATStatus.getValuesForAllowedTypes` for the incomplete map (same
modelling notes as `csvFoundCandidates`). -/
def csvIncompleteCandidates (options : Options) (s : DATStatusState) : List WriteCandidate :=
  reduceUnique ((getAllowedTypes options).flatMap s.incompleteRomTypesToCandidates)

/-- The status resolution of the per-game body of `DATStatus.toCsv`: default
MISSING, overwritten to INCOMPLETE on an incomplete-candidate match, then
overwritten to FOUND on a found-candidate match or a zero-rom game. -/
def csvGameStatus (options : Options) (s : DATStatusState) (g : Game) : GameStatus :=
  let status0 := GameStatus.MISSING
  let incompleteCandidate :=
    (csvIncompleteCandidates options s).find? (fun c => c.game == g)
  let status1 := if incompleteCandidate.isSome then GameStatus.INCOMPLETE else status0
  let foundCandidate := (csvFoundCandidates options s).find? (fun c => c.game == g)
  if foundCandidate.isSome || g.roms.length == 0 then GameStatus.FOUND else status1

/-- The file-path list of the per-game body of `DATStatus.toCsv`: the
incomplete candidate's then the found candidate's roms-with-files, mapped to
the output path when writing (else the input path), deduplicated. -/
def csvFilePathsForGame (options : Options) (s : DATStatusState) (g : Game) : List String :=
  let incompleteCandidate :=
    (csvIncompleteCandidates options s).find? (fun c => c.game == g)
  let foundCandidate := (csvFoundCandidates options s).find? (fun c => c.game == g)
  let combined : List RomWithFiles :=
    (match incompleteCandidate with
      | some ic => ic.romsWithFiles
      | none => []) ++
      (match foundCandidate with
      | some fc => fc.romsWithFiles
      | none => [])
  reduceUnique
    (combined.map (fun rwf => if options.shouldWrite then rwf.outputFile else rwf.inputFile))

/-- The patched column of the per-game body of `DATStatus.toCsv`:
`foundCandidate?.isPatched() ?? false`. -/
def csvPatchedForGame (options : Options) (s : DATStatusState) (g : Game) : Bool :=
  match (csvFoundCandidates options s).find? (fun c => c.game == g) with
  | some fc => fc.isPatched
  | none => false

/-- `String(b)` on a boolean. -/
def boolString (b : Bool) : String :=
  if b then "true" else "false"

/-- `DATStatus.buildCsvRow`. -/
def buildCsvRow (datName gameName : String) (status : GameStatus) (filePaths : List String)
    (patched bios retail unlicensed debug demo beta sample prototypeFlag programFlag
      aftermarket homebrew bad : Bool) : List String :=
  [datName,
   gameName,
   gameStatusName status,
   String.intercalate "|" filePaths,
   boolString patched,
   boolString bios,
   boolString retail,
   boolString unlicensed,
   boolString debug,
   boolString demo,
   boolString beta,
   boolString sample,
   boolString prototypeFlag,
   boolString programFlag,
   boolString aftermarket,
   boolString homebrew,
   boolString bad]

/-- The header row passed to `writeToString` in `DATStatus.toCsv`. -/
def csvHeaders : List String :=
  ["DAT Name", "Game Name", "Status", "ROM Files", "Patched", "BIOS", "Retail Release",
   "Unlicensed", "Debug", "Demo", "Beta", "Sample", "Prototype", "Program", "Aftermarket",
   "Homebrew", "Bad"]

/-- The per-game row of `DATStatus.toCsv` (the body of the `.map` over the
deduplicated, sorted game list; the CSV text serialization by `writeToString`
is external). -/
def toCsvRowForGame (options : Options) (dat : DAT) (s : DATStatusState) (g : Game) :
    List String :=
  buildCsvRow dat.name g.name (csvGameStatus options s g) (csvFilePathsForGame options s g)
    (csvPatchedForGame options s g)
    g.isBios g.isRetail g.unlicensed g.debug g.demo g.beta g.sample g.prototype g.program
    g.aftermarket g.homebrew g.bad

/-- The `writtenRomHashCodes` index of `FixdatCreator.create`: the hash code of
every rom appearing in any candidate's resolved `RomWithFiles` list.  The JS
`Set` is modelled as a list queried by membership. -/
def writtenRomHashCodes (candidates : List WriteCandidate) : List String :=
  (candidates.flatMap (fun c => c.romsWithFiles)).map (fun rwf => rwf.rom.hashCode)

/-- The `gamesWithMissingRoms` list of `FixdatCreator.create`: the catalog's
games having at least one rom whose hash code was not written. -/
def gamesWithMissingRoms (dat : DAT) (candidates : List WriteCandidate) : List Game :=
  dat.games.filter
    (fun g => !(g.roms.all (fun r => (writtenRomHashCodes candidates).contains r.hashCode)))

/-- `FixdatCreator.create`, with progress logging and the terminal I/O steps
(directory creation, XML serialization, file write) elided: it returns the
derived catalog's game list, or `none` when generation is disabled by
configuration or no game has a missing rom. -/
def fixdatGames (options : Options) (dat : DAT) (candidates : List WriteCandidate) :
    Option (List Game) :=
  if !options.shouldFixdat then none
  else if (gamesWithMissingRoms dat candidates).length = 0 then none
  else some (gamesWithMissingRoms dat candidates)

/-- Analysis of one iteration of the constructor's per-game loop: the candidate
pushed into the incomplete partition for this game, if any. -/
def incompleteEntryFor (candidates : List WriteCandidate) (g : Game) :
    Option WriteCandidate :=
  if gameCandidatesFor candidates g ≠ [] ∨ g.roms.length = 0 then
    match (gameCandidatesFor candidates g).head? with
    | some c => if c.romsWithFiles.length ≠ g.roms.length then some c else none
    | none => none
  else none

/-- Analysis of one iteration of the constructor's per-game loop: the
(possibly-`undefined`) entry pushed into the found partition for this game, if
any. -/
def foundEntryFor (candidates : List WriteCandidate) (g : Game) :
    Option (Option WriteCandidate) :=
  if gameCandidatesFor candidates g ≠ [] ∨ g.roms.length = 0 then
    match (gameCandidatesFor candidates g).head? with
    | some c =>
      if c.romsWithFiles.length ≠ g.roms.length then none else some (some c)
    | none => some none
  else none

/-- A game with the given name and roms and every boolean flag false. -/
def plainGame (name : String) (roms : List Rom) : Game :=
  { name := name, roms := roms, isBios := false, isDevice := false, isRetail := false,
    unlicensed := false, debug := false, demo := false, beta := false, sample := false,
    prototype := false, program := false, aftermarket := false, homebrew := false,
    bad := false }

/-- A configuration with every inclusion/exclusion toggle off, catalogs in use,
no writing, fixdat generation enabled. -/
def plainOptions : Options :=
  { onlyBios := false, onlyDevice := false, onlyRetail := false, noBios := false,
    noDevice := false, usingDats := true, shouldWrite := false, shouldFixdat := true }

/-- Concrete rom used by the witness and counterexample inputs. -/
def exRom1 : Rom := ⟨"rom one", "hash one"⟩

/-- Concrete rom used by the witness and counterexample inputs. -/
def exRom2 : Rom := ⟨"rom two", "hash two"⟩

/-- Concrete resolved rom-with-files pair for `exRom1`. -/
def exRwf1 : RomWithFiles := ⟨exRom1, "a.bin", "out/a.bin"⟩

/-- Concrete resolved rom-with-files pair for `exRom2`. -/
def exRwf2 : RomWithFiles := ⟨exRom2, "b.bin", "out/b.bin"⟩

/-- Concrete game with one rom, all flags false. -/
def exGameA : Game := plainGame "game A" [exRom1]

/-- Concrete complete candidate for `exGameA`. -/
def exCandA : WriteCandidate := ⟨exGameA, [exRwf1], false⟩

/-- Concrete one-game catalog holding `exGameA`. -/
def exDatA : DAT := ⟨"dat A", [exGameA]⟩

/-- Concrete game declaring zero roms. -/
def exGameB : Game := plainGame "game B" []

/-- Concrete candidate for the zero-rom `exGameB` carrying one resolved pair:
its resolved-rom count (1) is not strictly less than the declared count (0),
yet differs from it. -/
def exCandB : WriteCandidate := ⟨exGameB, [exRwf1], false⟩

/-- Concrete one-game catalog holding `exGameB`. -/
def exDatB : DAT := ⟨"dat B", [exGameB]⟩

/-- Concrete two-rom game. -/
def exGameC : Game := plainGame "game C" [exRom1, exRom2]

/-- Concrete candidate for `exGameC` that is both incomplete (one of two roms
resolved) and flagged patched. -/
def exCandC : WriteCandidate := ⟨exGameC, [exRwf1], true⟩

/-- Concrete one-game catalog holding `exGameC`. -/
def exDatC : DAT := ⟨"dat C", [exGameC]⟩

/-- Concrete candidate for `exGameA` with an empty resolved list. -/
def exCandD : WriteCandidate := ⟨exGameA, [], false⟩

/-- Concrete BIOS-flagged game with one rom. -/
def exGameE : Game := { plainGame "game E" [exRom1] with isBios := true }

/-- Concrete complete candidate for `exGameE`. -/
def exCandE : WriteCandidate := ⟨exGameE, [exRwf1], false⟩

/-- Concrete one-game catalog holding `exGameE`. -/
def exDatE : DAT := ⟨"dat E", [exGameE]⟩

/-- Concrete device-flagged game with no roms and every other flag false. -/
def exGameF : Game := { plainGame "game F" [] with isDevice := true }

/-- Concrete one-game catalog holding `exGameF`. -/
def exDatF : DAT := ⟨"dat F", [exGameF]⟩

/-- Concrete game whose single rom is resolved by no candidate. -/
def exGameG : Game := plainGame "game G" [exRom2]

/-- Concrete two-game catalog holding `exGameA` and `exGameG`. -/
def exDatG : DAT := ⟨"dat G", [exGameA, exGameG]⟩

theorem pushValueIntoMap_eq (m : ROMType → List α) (g : Game) (v : α) (t : ROMType) :
    pushValueIntoMap m g v t = if romTypeQualifies g t then m t ++ [v] else m t := by
  cases hb : g.isBios <;> cases hd : g.isDevice <;> cases hr : g.isRetail <;> cases t <;>
    simp [pushValueIntoMap, appendToMap, romTypeQualifies, hb, hd, hr]

theorem processGame_all (cands : List WriteCandidate) (s : DATStatusState) (g : Game)
    (t : ROMType) :
    (processGame cands s g).allRomTypesToGames t =
      s.allRomTypesToGames t ++ (if romTypeQualifies g t then [g] else []) := by
  unfold processGame
  by_cases h : gameCandidatesFor cands g ≠ [] ∨ g.roms.length = 0
  · rw [if_pos h]
    cases hh : (gameCandidatesFor cands g).head? with
    | none => simp [pushValueIntoMap_eq] <;> (split <;> simp)
    | some c =>
      by_cases hl : c.romsWithFiles.length ≠ g.roms.length <;>
        simp [hl, pushValueIntoMap_eq] <;> split <;> simp
  · rw [if_neg h]
    simp [pushValueIntoMap_eq] <;> (split <;> simp)

theorem processGame_incomplete (cands : List WriteCandidate) (s : DATStatusState) (g : Game)
    (t : ROMType) :
    (processGame cands s g).incompleteRomTypesToCandidates t =
      s.incompleteRomTypesToCandidates t ++
        (if romTypeQualifies g t then incompleteEntryFor cands g else none).toList := by
  unfold processGame incompleteEntryFor
  by_cases h : gameCandidatesFor cands g ≠ [] ∨ g.roms.length = 0
  · rw [if_pos h, if_pos h]
    cases hh : (gameCandidatesFor cands g).head? with
    | none => simp
    | some c =>
      by_cases hl : c.romsWithFiles.length ≠ g.roms.length <;>
        simp [hl, pushValueIntoMap_eq] <;> split <;> simp
  · rw [if_neg h, if_neg h]
    simp

theorem processGame_found (cands : List WriteCandidate) (s : DATStatusState) (g : Game)
    (t : ROMType) :
    (processGame cands s g).foundRomTypesToCandidates t =
      s.foundRomTypesToCandidates t ++
        (if romTypeQualifies g t then foundEntryFor cands g else none).toList := by
  unfold processGame foundEntryFor
  by_cases h : gameCandidatesFor cands g ≠ [] ∨ g.roms.length = 0
  · rw [if_pos h, if_pos h]
    cases hh : (gameCandidatesFor cands g).head? with
    | none => simp [pushValueIntoMap_eq] <;> (split <;> simp)
    | some c =>
      by_cases hl : c.romsWithFiles.length ≠ g.roms.length <;>
        simp [hl, pushValueIntoMap_eq] <;> split <;> simp
  · rw [if_neg h, if_neg h]
    simp

theorem foldl_processGame_all (cands : List WriteCandidate) (games : List Game)
    (s : DATStatusState) (t : ROMType) :
    ((games.foldl (processGame cands) s).allRomTypesToGames t) =
      s.allRomTypesToGames t ++
        games.flatMap (fun g => if romTypeQualifies g t then [g] else []) := by
  induction games generalizing s with
  | nil => simp
  | cons g gs ih =>
    rw [List.foldl_cons, ih, processGame_all]
    simp [List.append_assoc]

theorem foldl_processGame_incomplete (cands : List WriteCandidate) (games : List Game)
    (s : DATStatusState) (t : ROMType) :
    ((games.foldl (processGame cands) s).incompleteRomTypesToCandidates t) =
      s.incompleteRomTypesToCandidates t ++
        games.flatMap
          (fun g => (if romTypeQualifies g t then incompleteEntryFor cands g else none).toList) := by
  induction games generalizing s with
  | nil => simp
  | cons g gs ih =>
    rw [List.foldl_cons, ih, processGame_incomplete]
    simp [List.append_assoc]

theorem foldl_processGame_found (cands : List WriteCandidate) (games : List Game)
    (s : DATStatusState) (t : ROMType) :
    ((games.foldl (processGame cands) s).foundRomTypesToCandidates t) =
      s.foundRomTypesToCandidates t ++
        games.flatMap
          (fun g => (if romTypeQualifies g t then foundEntryFor cands g else none).toList) := by
  induction games generalizing s with
  | nil => simp
  | cons g gs ih =>
    rw [List.foldl_cons, ih, processGame_found]
    simp [List.append_assoc]

theorem foldl_appendPatched_incomplete (pcs : List WriteCandidate) (s : DATStatusState)
    (t : ROMType) :
    ((pcs.foldl appendPatched s).incompleteRomTypesToCandidates t) =
      s.incompleteRomTypesToCandidates t := by
  induction pcs generalizing s with
  | nil => rfl
  | cons c cs ih => rw [List.foldl_cons, ih]; rfl

theorem foldl_appendPatched_found (pcs : List WriteCandidate) (s : DATStatusState)
    (t : ROMType) :
    ((pcs.foldl appendPatched s).foundRomTypesToCandidates t) =
      s.foundRomTypesToCandidates t ++
        (if t = ROMType.PATCHED then pcs.map some else []) := by
  induction pcs generalizing s with
  | nil => simp
  | cons c cs ih =>
    rw [List.foldl_cons, ih]
    by_cases ht : t = ROMType.PATCHED <;>
      simp [appendPatched, appendToMap, ht, List.append_assoc]

theorem foldl_appendPatched_all (pcs : List WriteCandidate) (s : DATStatusState)
    (t : ROMType) :
    ((pcs.foldl appendPatched s).allRomTypesToGames t) =
      s.allRomTypesToGames t ++
        (if t = ROMType.PATCHED then pcs.map (fun c => c.game) else []) := by
  induction pcs generalizing s with
  | nil => simp
  | cons c cs ih =>
    rw [List.foldl_cons, ih]
    by_cases ht : t = ROMType.PATCHED <;>
      simp [appendPatched, appendToMap, ht, List.append_assoc]

theorem buildStatus_incomplete (dat : DAT) (cands : List WriteCandidate) (t : ROMType) :
    (buildStatus dat cands).incompleteRomTypesToCandidates t =
      dat.games.flatMap
        (fun g => (if romTypeQualifies g t then incompleteEntryFor cands g else none).toList) := by
  unfold buildStatus
  rw [foldl_appendPatched_incomplete, foldl_processGame_incomplete]
  simp [emptyStatus]

theorem buildStatus_found (dat : DAT) (cands : List WriteCandidate) (t : ROMType) :
    (buildStatus dat cands).foundRomTypesToCandidates t =
      dat.games.flatMap
          (fun g => (if romTypeQualifies g t then foundEntryFor cands g else none).toList) ++
        (if t = ROMType.PATCHED then
          (cands.filter (fun c => c.isPatched)).map some
        else []) := by
  unfold buildStatus
  rw [foldl_appendPatched_found, foldl_processGame_found]
  simp [emptyStatus]

theorem buildStatus_all (dat : DAT) (cands : List WriteCandidate) (t : ROMType) :
    (buildStatus dat cands).allRomTypesToGames t =
      dat.games.flatMap (fun g => if romTypeQualifies g t then [g] else []) ++
        (if t = ROMType.PATCHED then
          (cands.filter (fun c => c.isPatched)).map (fun c => c.game)
        else []) := by
  unfold buildStatus
  rw [foldl_appendPatched_all, foldl_processGame_all]
  simp [emptyStatus]

theorem mem_ite_toList {b : Bool} {o : Option α} {a : α}
    (h : a ∈ (if b = true then o else none).toList) : b = true ∧ o = some a := by
  cases b <;> simp_all

theorem head?_gameCandidatesFor (cands : List WriteCandidate) (g : Game)
    (c : WriteCandidate) (h : (gameCandidatesFor cands g).head? = some c) :
    c.game = g ∧ c ∈ cands := by
  have hmem : c ∈ gameCandidatesFor cands g := by
    cases hl : gameCandidatesFor cands g with
    | nil => rw [hl] at h; exact absurd h (by simp)
    | cons a l =>
      rw [hl] at h
      simp only [List.head?_cons, Option.some.injEq] at h
      rw [← h]
      exact List.mem_cons_self a l
  rw [gameCandidatesFor, List.mem_filter] at hmem
  exact ⟨by simpa using hmem.2, hmem.1⟩

theorem incompleteEntryFor_spec (cands : List WriteCandidate) (g : Game)
    (c : WriteCandidate) (h : incompleteEntryFor cands g = some c) :
    (gameCandidatesFor cands g).head? = some c ∧
      c.romsWithFiles.length ≠ g.roms.length := by
  unfold incompleteEntryFor at h
  split at h
  · split at h
    next c1 hh =>
      split at h
      next hl =>
        obtain rfl : c1 = c := by simpa using h
        exact ⟨hh, hl⟩
      next hl => exact absurd h (by simp)
    next hh => exact absurd h (by simp)
  · exact absurd h (by simp)

theorem foundEntryFor_spec (cands : List WriteCandidate) (g : Game)
    (oc : Option WriteCandidate) (h : foundEntryFor cands g = some oc) :
    (gameCandidatesFor cands g).head? = oc ∧
      (∀ c, oc = some c → c.romsWithFiles.length = g.roms.length) := by
  unfold foundEntryFor at h
  split at h
  · split at h
    next c1 hh =>
      split at h
      next hl => exact absurd h (by simp)
      next hl =>
        obtain rfl : (some c1 : Option WriteCandidate) = oc := by simpa using h
        refine ⟨hh, ?_⟩
        intro c hc
        obtain rfl : c1 = c := by simpa using hc
        simpa using hl
    next hh =>
      obtain rfl : (none : Option WriteCandidate) = oc := by simpa using h
      exact ⟨hh, by simp⟩
  · exact absurd h (by simp)

theorem entry_exclusive (cands : List WriteCandidate) (g : Game) :
    incompleteEntryFor cands g = none ∨ foundEntryFor cands g = none := by
  unfold incompleteEntryFor foundEntryFor
  by_cases hcond : gameCandidatesFor cands g ≠ [] ∨ g.roms.length = 0
  · rw [if_pos hcond, if_pos hcond]
    cases hh : (gameCandidatesFor cands g).head? with
    | none => simp
    | some c => by_cases hl : c.romsWithFiles.length ≠ g.roms.length <;> simp [hl]
  · rw [if_neg hcond, if_neg hcond]
    simp

theorem flatMap_nil_fun (l : List α) : (l.flatMap fun _ => ([] : List β)) = [] := by
  induction l with
  | nil => rfl
  | cons x xs ih => simp [ih]

theorem csvGameStatus_eq (options : Options) (s : DATStatusState) (g : Game) :
    csvGameStatus options s g =
      if (∃ c ∈ csvFoundCandidates options s, c.game = g) ∨ g.roms = [] then
        GameStatus.FOUND
      else if ∃ c ∈ csvIncompleteCandidates options s, c.game = g then
        GameStatus.INCOMPLETE
      else GameStatus.MISSING := by
  have hf : (((csvFoundCandidates options s).find? (fun c => c.game == g)).isSome
      || (g.roms.length == 0)) = true ↔
      ((∃ c ∈ csvFoundCandidates options s, c.game = g) ∨ g.roms = []) := by
    simp [List.find?_isSome, List.length_eq_zero]
  have hi : ((csvIncompleteCandidates options s).find? (fun c => c.game == g)).isSome
      = true ↔ ∃ c ∈ csvIncompleteCandidates options s, c.game = g := by
    simp [List.find?_isSome]
  simp only [csvGameStatus]
  by_cases h1 : (∃ c ∈ csvFoundCandidates options s, c.game = g) ∨ g.roms = []
  · rw [if_pos (hf.mpr h1), if_pos h1]
  · rw [if_neg (fun hh => h1 (hf.mp hh)), if_neg h1]
    by_cases h2 : ∃ c ∈ csvIncompleteCandidates options s, c.game = g
    · rw [if_pos (hi.mpr h2), if_pos h2]
    · rw [if_neg (fun hh => h2 (hi.mp hh)), if_neg h2]

theorem foldl_or_eq_any (p : ROMType → Bool) (l : List ROMType) (b : Bool) :
    l.foldl (fun r t => r || p t) b = (b || l.any p) := by
  induction l generalizing b with
  | nil => simp
  | cons t ts ih => simp [List.foldl_cons, ih, Bool.or_assoc]

theorem mem_getAllowedTypes_GAME (options : Options) (hB : options.onlyBios = false)
    (hD : options.onlyDevice = false) (hR : options.onlyRetail = false) :
    ROMType.GAME ∈ getAllowedTypes options := by
  unfold getAllowedTypes
  refine List.mem_filterMap.mpr ⟨some ROMType.GAME, ?_, rfl⟩
  rw [hB, hD, hR]
  simp

theorem mem_writtenRomHashCodes (cands : List WriteCandidate) (h : String) :
    h ∈ writtenRomHashCodes cands ↔
      ∃ c ∈ cands, ∃ rwf ∈ c.romsWithFiles, rwf.rom.hashCode = h := by
  unfold writtenRomHashCodes
  simp only [List.mem_map, List.mem_flatMap]
  constructor
  · rintro ⟨rwf, ⟨c, hc, hrwf⟩, hh⟩
    exact ⟨c, hc, rwf, hrwf, hh⟩
  · rintro ⟨c, hc, rwf, hrwf, hh⟩
    exact ⟨rwf, ⟨c, hc, hrwf⟩, hh⟩

theorem mem_gamesWithMissingRoms (dat : DAT) (cands : List WriteCandidate) (g : Game) :
    g ∈ gamesWithMissingRoms dat cands ↔
      g ∈ dat.games ∧
        ∃ r ∈ g.roms, ∀ c ∈ cands, ∀ rwf ∈ c.romsWithFiles,
          rwf.rom.hashCode ≠ r.hashCode := by
  unfold gamesWithMissingRoms
  rw [List.mem_filter]
  refine and_congr_right fun _ => ?_
  rw [Bool.not_eq_true']
  rw [List.all_eq_false]
  constructor
  · rintro ⟨r, hr, hcon⟩
    refine ⟨r, hr, ?_⟩
    intro c hc rwf hrwf heq
    have hmem : r.hashCode ∈ writtenRomHashCodes cands :=
      (mem_writtenRomHashCodes cands r.hashCode).mpr ⟨c, hc, rwf, hrwf, heq⟩
    exact hcon ((List.contains_iff_exists_mem_beq).mpr ⟨r.hashCode, hmem, by simp⟩)
  · rintro ⟨r, hr, hmiss⟩
    refine ⟨r, hr, ?_⟩
    intro hcon
    obtain ⟨h1, hmem1, hbeq⟩ := (List.contains_iff_exists_mem_beq).mp hcon
    obtain rfl : r.hashCode = h1 := by simpa using hbeq
    obtain ⟨c, hc, rwf, hrwf, heq⟩ := (mem_writtenRomHashCodes cands r.hashCode).mp hmem1
    exact hmiss c hc rwf hrwf heq

theorem foundEntryFor_no_candidates (g : Game) :
    foundEntryFor [] g = if g.roms.length = 0 then some none else none := by
  unfold foundEntryFor gameCandidatesFor
  by_cases h : g.roms.length = 0 <;> simp [h]

theorem length_foundEntries_no_candidates (games : List Game) :
    ((games.flatMap
        (fun g => (if romTypeQualifies g ROMType.GAME then foundEntryFor [] g
          else none).toList)).length) =
      (games.filter (fun g => g.roms.length == 0)).length := by
  induction games with
  | nil => rfl
  | cons g gs ih =>
    rw [List.flatMap_cons, List.length_append, ih, List.filter_cons]
    by_cases h : g.roms.length = 0 <;>
      simp [romTypeQualifies, foundEntryFor_no_candidates, h, Nat.add_comm]

/-- C1 (amended): during construction, for every game in the catalog that has a
candidate group or declares zero roms and for every ROM-type tag it qualifies
for: if the first candidate exists and its resolved-rom count differs from the
declared rom count, the candidate is recorded into the incomplete partition
under that tag; otherwise the (possibly absent) first candidate is recorded
into the found partition under that tag. -/
theorem c1_construction_classification (dat : DAT) (cands : List WriteCandidate)
    (g : Game) (t : ROMType) (hg : g ∈ dat.games) (ht : romTypeQualifies g t = true)
    (hcond : gameCandidatesFor cands g ≠ [] ∨ g.roms.length = 0) :
    (∀ c, (gameCandidatesFor cands g).head? = some c →
      (c.romsWithFiles.length ≠ g.roms.length →
        c ∈ (buildStatus dat cands).incompleteRomTypesToCandidates t) ∧
      (c.romsWithFiles.length = g.roms.length →
        some c ∈ (buildStatus dat cands).foundRomTypesToCandidates t)) ∧
    ((gameCandidatesFor cands g).head? = none →
      (none : Option WriteCandidate) ∈ (buildStatus dat cands).foundRomTypesToCandidates t)
    := by
  constructor
  · intro c hc
    constructor
    · intro hne
      rw [buildStatus_incomplete, List.mem_flatMap]
      refine ⟨g, hg, ?_⟩
      rw [if_pos ht]
      have hent : incompleteEntryFor cands g = some c := by
        unfold incompleteEntryFor
        rw [if_pos hcond, hc]
        simp [hne]
      rw [hent]
      simp
    · intro heq
      rw [buildStatus_found, List.mem_append]
      left
      rw [List.mem_flatMap]
      refine ⟨g, hg, ?_⟩
      rw [if_pos ht]
      have hent : foundEntryFor cands g = some (some c) := by
        unfold foundEntryFor
        rw [if_pos hcond, hc]
        simp [heq]
      rw [hent]
      simp
  · intro hnone
    rw [buildStatus_found, List.mem_append]
    left
    rw [List.mem_flatMap]
    refine ⟨g, hg, ?_⟩
    rw [if_pos ht]
    have hent : foundEntryFor cands g = some none := by
      unfold foundEntryFor
      rw [if_pos hcond, hnone]
    rw [hent]
    simp

/-- C1 witness: a one-rom game with a complete first candidate is recorded
into the found partition under the games tag. -/
theorem c1_witness :
    some exCandA ∈ (buildStatus exDatA [exCandA]).foundRomTypesToCandidates ROMType.GAME :=
  ((c1_construction_classification exDatA [exCandA] exGameA ROMType.GAME (by decide)
      (by decide) (by decide)).1 exCandA (by decide)).2 (by decide)

/-- C1 counterexample: for a zero-rom game whose first candidate carries one
resolved pair, the resolved-rom count (1) is not strictly less than the
declared count (0), yet the constructor records the game into the incomplete
partition and not into the found partition, contradicting the claim's
"otherwise found" branch. -/
theorem c1_counterexample :
    (gameCandidatesFor [exCandB] exGameB).head? = some exCandB ∧
    ¬(exCandB.romsWithFiles.length < exGameB.roms.length) ∧
    exCandB ∈ (buildStatus exDatB [exCandB]).incompleteRomTypesToCandidates ROMType.GAME ∧
    (buildStatus exDatB [exCandB]).foundRomTypesToCandidates ROMType.GAME = [] := by
  decide

/-- C2: the fixdat generator returns absent when generation is disabled or
when no game has an unresolved rom; otherwise the derived catalog contains
exactly the games with at least one declared rom resolved by no candidate, and
excludes every fully-resolved game. -/
theorem c2_fixdat_characterization (options : Options) (dat : DAT)
    (cands : List WriteCandidate) :
    (options.shouldFixdat = false → fixdatGames options dat cands = none) ∧
    ((∀ g ∈ dat.games, ∀ r ∈ g.roms, ∃ c ∈ cands, ∃ rwf ∈ c.romsWithFiles,
        rwf.rom.hashCode = r.hashCode) →
      fixdatGames options dat cands = none) ∧
    (∀ l, fixdatGames options dat cands = some l →
      ∀ g, g ∈ l ↔ g ∈ dat.games ∧ ∃ r ∈ g.roms, ∀ c ∈ cands,
        ∀ rwf ∈ c.romsWithFiles, rwf.rom.hashCode ≠ r.hashCode) ∧
    (options.shouldFixdat = true →
      (∃ g ∈ dat.games, ∃ r ∈ g.roms, ∀ c ∈ cands, ∀ rwf ∈ c.romsWithFiles,
        rwf.rom.hashCode ≠ r.hashCode) →
      (fixdatGames options dat cands).isSome = true) := by
  refine ⟨?_, ?_, ?_, ?_⟩
  · intro h
    simp [fixdatGames, h]
  · intro hall
    have hempty : gamesWithMissingRoms dat cands = [] := by
      rw [List.eq_nil_iff_forall_not_mem]
      intro g hgmem
      rw [mem_gamesWithMissingRoms] at hgmem
      obtain ⟨hgd, r, hr, hbad⟩ := hgmem
      obtain ⟨c, hc, rwf, hrwf, heq⟩ := hall g hgd r hr
      exact hbad c hc rwf hrwf heq
    simp [fixdatGames, hempty]
  · intro l hl g
    unfold fixdatGames at hl
    split at hl
    · exact absurd hl (by simp)
    · split at hl
      · exact absurd hl (by simp)
      · obtain rfl : gamesWithMissingRoms dat cands = l := by simpa using hl
        exact mem_gamesWithMissingRoms dat cands g
  · intro hsf hex
    obtain ⟨g, hgd, r, hr, hmiss⟩ := hex
    have hmem : g ∈ gamesWithMissingRoms dat cands :=
      (mem_gamesWithMissingRoms dat cands g).mpr ⟨hgd, r, hr, hmiss⟩
    have hlen : ¬(gamesWithMissingRoms dat cands).length = 0 := by
      intro hh
      rw [List.length_eq_zero] at hh
      rw [hh] at hmem
      exact absurd hmem (by simp)
    simp [fixdatGames, hsf, hlen]

/-- C2 witness: on a concrete catalog with one resolved and one unresolved
game, the generator emits exactly the unresolved game, whose membership
satisfies the characterization. -/
theorem c2_witness :
    exGameG ∈ [exGameG] ↔ exGameG ∈ exDatG.games ∧ ∃ r ∈ exGameG.roms,
      ∀ c ∈ [exCandA], ∀ rwf ∈ c.romsWithFiles, rwf.rom.hashCode ≠ r.hashCode :=
  (c2_fixdat_characterization plainOptions exDatG [exCandA]).2.2.1 [exGameG]
    (by decide) exGameG

/-- C3: in the CSV export, each game status is resolved with explicit
precedence: FOUND when a found-candidate match exists or the game declares
zero roms (overriding INCOMPLETE), else INCOMPLETE when an
incomplete-candidate match exists, else MISSING. -/
theorem c3_csv_status_precedence (options : Options) (dat : DAT)
    (cands : List WriteCandidate) (g : Game) :
    csvGameStatus options (buildStatus dat cands) g =
      if (∃ c ∈ csvFoundCandidates options (buildStatus dat cands), c.game = g) ∨
          g.roms = [] then
        GameStatus.FOUND
      else if ∃ c ∈ csvIncompleteCandidates options (buildStatus dat cands), c.game = g then
        GameStatus.INCOMPLETE
      else GameStatus.MISSING :=
  csvGameStatus_eq options (buildStatus dat cands) g

/-- C4 counterexample: a candidate flagged patched whose resolved-rom count
differs from its game declared count puts the same game simultaneously into
the incomplete partition (games tag) and the found partition (patched tag). -/
theorem c4_counterexample :
    exCandC.isPatched = true ∧ exCandC.game = exGameC ∧
    exCandC ∈ (buildStatus exDatC [exCandC]).incompleteRomTypesToCandidates ROMType.GAME ∧
    some exCandC ∈ (buildStatus exDatC [exCandC]).foundRomTypesToCandidates ROMType.PATCHED
    := by
  decide

/-- C4 (amended): after construction no game appears both in the found
partition under a tag other than patched and in the incomplete partition
under any tag; only the found partition patched tag, populated unconditionally
from patched candidates, can additionally hold a game recorded incomplete. -/
theorem c4_partition_exclusive (dat : DAT) (cands : List WriteCandidate) (g : Game)
    (t t2 : ROMType) (ht : t ≠ ROMType.PATCHED) :
    ¬((∃ oc ∈ (buildStatus dat cands).foundRomTypesToCandidates t,
        ∃ c, oc = some c ∧ c.game = g) ∧
      ∃ c ∈ (buildStatus dat cands).incompleteRomTypesToCandidates t2, c.game = g) := by
  rintro ⟨⟨oc, hocmem, c, rfl, hcg⟩, c2, hcmem, hcg2⟩
  rw [buildStatus_found, if_neg ht, List.append_nil, List.mem_flatMap] at hocmem
  obtain ⟨g1, hg1, hmem1⟩ := hocmem
  obtain ⟨hq1, hentry1⟩ := mem_ite_toList hmem1
  rw [buildStatus_incomplete, List.mem_flatMap] at hcmem
  obtain ⟨g2, hg2, hmem2⟩ := hcmem
  obtain ⟨hq2, hentry2⟩ := mem_ite_toList hmem2
  obtain ⟨hhead1, _⟩ := foundEntryFor_spec cands g1 (some c) hentry1
  obtain ⟨hcg1, _⟩ := head?_gameCandidatesFor cands g1 c hhead1
  obtain ⟨hhead2, _⟩ := incompleteEntryFor_spec cands g2 c2 hentry2
  obtain ⟨hcg2b, _⟩ := head?_gameCandidatesFor cands g2 c2 hhead2
  have hg1g : g1 = g := by rw [← hcg1, hcg]
  have hg2g : g2 = g := by rw [← hcg2b, hcg2]
  rw [hg1g] at hentry1
  rw [hg2g] at hentry2
  rcases entry_exclusive cands g with hside | hside
  · rw [hside] at hentry2
    exact absurd hentry2 (by simp)
  · rw [hside] at hentry1
    exact absurd hentry1 (by simp)

/-- C4 witness: instantiation of the amended exclusivity at a concrete catalog
and candidate list. -/
theorem c4_witness :
    ¬((∃ oc ∈ (buildStatus exDatA [exCandA]).foundRomTypesToCandidates ROMType.GAME,
        ∃ c, oc = some c ∧ c.game = exGameA) ∧
      ∃ c ∈ (buildStatus exDatA [exCandA]).incompleteRomTypesToCandidates ROMType.GAME,
        c.game = exGameA) :=
  c4_partition_exclusive exDatA [exCandA] exGameA ROMType.GAME ROMType.GAME (by decide)

/-- C5 counterexample: a candidate with an empty resolved list for a one-rom
game is recorded into the incomplete partition with a resolved-rom count of
zero, contradicting the claimed "at least one". -/
theorem c5_counterexample :
    exCandD ∈ (buildStatus exDatA [exCandD]).incompleteRomTypesToCandidates ROMType.GAME ∧
    exCandD.romsWithFiles.length = 0 := by
  decide

/-- C5 (amended): every candidate recorded in the incomplete partition is the
first candidate of a catalog game and its resolved-rom count differs from
that game declared rom count (it may be zero or exceed it). -/
theorem c5_incomplete_entries (dat : DAT) (cands : List WriteCandidate) (t : ROMType)
    (c : WriteCandidate)
    (hc : c ∈ (buildStatus dat cands).incompleteRomTypesToCandidates t) :
    c.game ∈ dat.games ∧ (gameCandidatesFor cands c.game).head? = some c ∧
      c.romsWithFiles.length ≠ c.game.roms.length := by
  rw [buildStatus_incomplete, List.mem_flatMap] at hc
  obtain ⟨g, hg, hmem⟩ := hc
  obtain ⟨hq, hentry⟩ := mem_ite_toList hmem
  obtain ⟨hhead, hlen⟩ := incompleteEntryFor_spec cands g c hentry
  obtain ⟨hcg, _⟩ := head?_gameCandidatesFor cands g c hhead
  rw [hcg]
  exact ⟨hg, hhead, hlen⟩

/-- C5 witness: instantiation of the amended invariant at the concrete
empty-candidate input. -/
theorem c5_witness :
    exCandD.game ∈ exDatA.games ∧
    (gameCandidatesFor [exCandD] exCandD.game).head? = some exCandD ∧
    exCandD.romsWithFiles.length ≠ exCandD.game.roms.length :=
  c5_incomplete_entries exDatA [exCandD] ROMType.GAME exCandD (by decide)

/-- C6: the claim asserts no file path occurs more than once in the result of
the input-files query, but the code performs no deduplication: for a single
BIOS-flagged game with one complete candidate, the candidate is recorded under
both the games and BIOSes tags and its input file is returned twice. -/
theorem c6_input_files_duplicated :
    getInputFiles (buildStatus exDatE [exCandE]) = ["a.bin", "a.bin"] := by
  decide

/-- C7 (amended): each CSV export row has seventeen fixed columns: catalog
name, game name, status label, pipe-joined file paths, the patched flag, and
the twelve boolean attribute flags emitted for a game (BIOS, retail,
unlicensed, debug, demo, beta, sample, prototype, program, aftermarket,
homebrew, bad - the is-device flag is not emitted), each boolean serialized as
literal true/false text, matching the seventeen-entry header row. -/
theorem c7_row_columns (options : Options) (dat : DAT) (s : DATStatusState) (g : Game) :
    (toCsvRowForGame options dat s g).length = 17 ∧
    csvHeaders.length = 17 ∧
    toCsvRowForGame options dat s g =
      [dat.name, g.name, gameStatusName (csvGameStatus options s g),
       String.intercalate "|" (csvFilePathsForGame options s g),
       boolString (csvPatchedForGame options s g),
       boolString g.isBios, boolString g.isRetail, boolString g.unlicensed,
       boolString g.debug, boolString g.demo, boolString g.beta, boolString g.sample,
       boolString g.prototype, boolString g.program, boolString g.aftermarket,
       boolString g.homebrew, boolString g.bad] :=
  ⟨rfl, rfl, rfl⟩

/-- C7 counterexample: for a device-flagged game the claim predicts eighteen
columns (five leading columns plus thirteen flags) including the device flag
serialized as the text true, but the emitted row has seventeen columns and
contains no true at all. -/
theorem c7_counterexample :
    exGameF.isDevice = true ∧
    (toCsvRowForGame plainOptions exDatF (buildStatus exDatF []) exGameF).length = 17 ∧
    "true" ∉ toCsvRowForGame plainOptions exDatF (buildStatus exDatF []) exGameF := by
  decide

/-- C8: every patched candidate's game is counted as found under the patched
tag, the found-partition count for the patched tag always equals the
all-partition count for that tag, and the console segment for the patched tag
is a bare count, never a found/all fraction. -/
theorem c8_patched_tag (dat : DAT) (cands : List WriteCandidate) (options : Options) :
    ((buildStatus dat cands).foundRomTypesToCandidates ROMType.PATCHED).length =
      ((buildStatus dat cands).allRomTypesToGames ROMType.PATCHED).length ∧
    (∀ c ∈ cands, c.isPatched = true →
      some c ∈ (buildStatus dat cands).foundRomTypesToCandidates ROMType.PATCHED ∧
      c.game ∈ (buildStatus dat cands).allRomTypesToGames ROMType.PATCHED) ∧
    toConsoleSegment options (buildStatus dat cands) ROMType.PATCHED =
      Nat.repr ((buildStatus dat cands).allRomTypesToGames ROMType.PATCHED).length ++
        " " ++ romTypeName ROMType.PATCHED := by
  have hfound : (buildStatus dat cands).foundRomTypesToCandidates ROMType.PATCHED =
      (cands.filter (fun c => c.isPatched)).map some := by
    rw [buildStatus_found]
    simp [romTypeQualifies, flatMap_nil_fun]
  have hall : (buildStatus dat cands).allRomTypesToGames ROMType.PATCHED =
      (cands.filter (fun c => c.isPatched)).map (fun c => c.game) := by
    rw [buildStatus_all]
    simp [romTypeQualifies, flatMap_nil_fun]
  have hlen : ((buildStatus dat cands).foundRomTypesToCandidates ROMType.PATCHED).length =
      ((buildStatus dat cands).allRomTypesToGames ROMType.PATCHED).length := by
    rw [hfound, hall]
    simp
  refine ⟨hlen, ?_, ?_⟩
  · intro c hcmem hcp
    constructor
    · rw [hfound]
      exact List.mem_map.mpr ⟨c, List.mem_filter.mpr ⟨hcmem, by simp [hcp]⟩, rfl⟩
    · rw [hall]
      exact List.mem_map.mpr ⟨c, List.mem_filter.mpr ⟨hcmem, by simp [hcp]⟩, rfl⟩
  · unfold toConsoleSegment
    cases hud : options.usingDats with
    | false => simp [hud, hlen]
    | true => simp [hud]

/-- C8 witness: instantiation at a concrete patched candidate. -/
theorem c8_witness :
    some exCandC ∈ (buildStatus exDatC [exCandC]).foundRomTypesToCandidates ROMType.PATCHED ∧
    exCandC.game ∈ (buildStatus exDatC [exCandC]).allRomTypesToGames ROMType.PATCHED :=
  (c8_patched_tag exDatC [exCandC] plainOptions).2.1 exCandC (by decide) (by decide)

/-- C9: for every configuration of the five toggles, membership in the
allowed ROM-type list is exactly as claimed: games iff no only-filter is set;
BIOSes iff onlyBios or (not noBios and not onlyDevice); devices iff onlyDevice
or (not onlyBios and not noDevice); retail releases iff onlyRetail or (not
onlyBios and not onlyDevice); patched games always. -/
theorem c9_allowed_types (o : Options) :
    (ROMType.GAME ∈ getAllowedTypes o ↔
      o.onlyBios = false ∧ o.onlyDevice = false ∧ o.onlyRetail = false) ∧
    (ROMType.BIOS ∈ getAllowedTypes o ↔
      o.onlyBios = true ∨ (o.noBios = false ∧ o.onlyDevice = false)) ∧
    (ROMType.DEVICE ∈ getAllowedTypes o ↔
      o.onlyDevice = true ∨ (o.onlyBios = false ∧ o.noDevice = false)) ∧
    (ROMType.RETAIL ∈ getAllowedTypes o ↔
      o.onlyRetail = true ∨ (o.onlyBios = false ∧ o.onlyDevice = false)) ∧
    ROMType.PATCHED ∈ getAllowedTypes o := by
  obtain ⟨b1, b2, b3, b4, b5, b6, b7, b8⟩ := o
  revert b1 b2 b3 b4 b5 b6 b7 b8
  decide

/-- C10: a zero-rom game with no candidate is recorded as an undefined
placeholder in the found partition under each qualifying tag; with an empty
candidate list the found-partition length under the games tag counts exactly
the zero-rom games, and anyGamesFound is true when no only-filter is set. -/
theorem c10_zero_rom_found (dat : DAT) (cands : List WriteCandidate) (options : Options)
    (g : Game) (hg : g ∈ dat.games) (h0 : g.roms.length = 0)
    (hnc : gameCandidatesFor cands g = [])
    (hB : options.onlyBios = false) (hD : options.onlyDevice = false)
    (hR : options.onlyRetail = false) :
    (∀ t, romTypeQualifies g t = true →
      (none : Option WriteCandidate) ∈ (buildStatus dat cands).foundRomTypesToCandidates t) ∧
    (cands = [] →
      ((buildStatus dat cands).foundRomTypesToCandidates ROMType.GAME).length =
        (dat.games.filter (fun x => x.roms.length == 0)).length) ∧
    anyGamesFound options (buildStatus dat cands) = true := by
  have hentry : foundEntryFor cands g = some none := by
    unfold foundEntryFor
    rw [if_pos (Or.inr h0), hnc]
    simp
  have hmemTag : ∀ t, romTypeQualifies g t = true →
      (none : Option WriteCandidate) ∈ (buildStatus dat cands).foundRomTypesToCandidates t := by
    intro t ht
    rw [buildStatus_found, List.mem_append]
    left
    rw [List.mem_flatMap]
    refine ⟨g, hg, ?_⟩
    rw [if_pos ht, hentry]
    simp
  refine ⟨hmemTag, ?_, ?_⟩
  · rintro rfl
    rw [buildStatus_found]
    rw [if_neg (by simp), List.append_nil]
    exact length_foundEntries_no_candidates dat.games
  · unfold anyGamesFound
    rw [foldl_or_eq_any]
    rw [Bool.false_or, List.any_eq_true]
    refine ⟨ROMType.GAME, mem_getAllowedTypes_GAME options hB hD hR, ?_⟩
    rw [decide_eq_true_eq]
    exact List.length_pos.mpr (List.ne_nil_of_mem (hmemTag ROMType.GAME rfl))

/-- C10 witness: instantiation at a concrete one-game zero-rom catalog with no
candidates and default options. -/
theorem c10_witness :
    anyGamesFound plainOptions (buildStatus exDatB []) = true :=
  (c10_zero_rom_found exDatB [] plainOptions exGameB (by decide) (by decide) rfl rfl rfl
    rfl).2.2

end Igir
